import Mathlib

/-!
# Verification of the ts-cli session/dispatch/transport/render pipeline

A shallow embedding of the two source files of the repository
(`internal/http_client.go` and `internal/prompt.go`) together with proofs
about the embedded definitions.

Modelling conventions:
* Go strings are modelled as Lean `String`s; Go byte indices coincide with
  the character indices used here on ASCII input (every concrete input used
  below is ASCII).  UTF-8 byte sequences, where the source manipulates
  bytes (base64 of the credentials), are produced explicitly by `utf8Bytes`.
* Go library helpers used by the source (`strings.TrimSpace`,
  `strings.Fields`, the slice expression `s[7:]`, `base64.StdEncoding`)
  are modelled by the `go...`-named functions, each mirroring the Go
  semantics.  `goSliceFrom` returns `none` exactly where the Go slice
  expression panics (slice bound past the end of the string).
* The interactive front end (go-prompt), the HTTP transport and the JSON
  decoder are external collaborators: the executor records the request it
  would send as an `Effect`, the `auth` handler receives the two strings
  the user would type, and the renderer `pretty` receives the outcome of
  `json.Unmarshal` as an `Except` value.
-/

namespace TsCli

/-- Model of Go `unicode.IsSpace` restricted to the ASCII whitespace
characters (the inputs considered in the proofs are ASCII). -/
def goIsSpace (c : Char) : Bool :=
  c = ' ' || c = '\t' || c = '\n' || c = '\x0b' || c = '\x0c' || c = '\r'

/-- Model of Go `strings.TrimSpace`: remove leading and trailing
whitespace. -/
def goTrimSpace (s : String) : String :=
  ⟨((s.data.dropWhile goIsSpace).reverse.dropWhile goIsSpace).reverse⟩

/-- Split a character list at every whitespace character; empty chunks are
kept and filtered away by `goFields`. -/
def splitWs : List Char → List (List Char)
  | [] => [[]]
  | c :: cs =>
    let r := splitWs cs
    if goIsSpace c then [] :: r
    else (c :: r.headD []) :: r.tail

/-- Model of Go `strings.Fields`: the maximal runs of non-whitespace
characters of `s`, in order. -/
def goFields (s : String) : List String :=
  ((splitWs s.data).filter (fun l => l ≠ [])).map fun l => ⟨l⟩

/-- Model of the Go slice expression `s[n:]`.  Go panics when `n` exceeds
`len(s)`; that case is `none`. -/
def goSliceFrom (s : String) (n : Nat) : Option String :=
  if n ≤ s.data.length then some ⟨s.data.drop n⟩ else none

/-- UTF-8 encoding of one character, as byte values. -/
def utf8Bytes (c : Char) : List Nat :=
  let n := c.toNat
  if n < 0x80 then [n]
  else if n < 0x800 then [0xC0 + n / 64, 0x80 + n % 64]
  else if n < 0x10000 then [0xE0 + n / 4096, 0x80 + n / 64 % 64, 0x80 + n % 64]
  else [0xF0 + n / 262144, 0x80 + n / 4096 % 64, 0x80 + n / 64 % 64, 0x80 + n % 64]

/-- The UTF-8 bytes of a string (a Go string is exactly this byte
sequence). -/
def stringBytes (s : String) : List Nat :=
  (s.data.map utf8Bytes).flatten

/-- The standard base64 alphabet used by Go `base64.StdEncoding`. -/
def base64Alphabet : String :=
  "ABCDEFGHIJKLMNOPQRSTUVWXYZabcdefghijklmnopqrstuvwxyz0123456789+/"

/-- The base64 digit for a 6-bit value. -/
def base64Char (n : Nat) : Char := base64Alphabet.data.getD n 'A'

/-- Base64-encode a byte sequence, with `=` padding, exactly as Go
`base64.StdEncoding.EncodeToString` does. -/
def base64EncodeList : List Nat → List Char
  | [] => []
  | [a] => [base64Char (a / 4), base64Char (a % 4 * 16), '=', '=']
  | [a, b] => [base64Char (a / 4), base64Char (a % 4 * 16 + b / 16),
               base64Char (b % 16 * 4), '=']
  | a :: b :: c :: rest =>
      base64Char (a / 4) :: base64Char (a % 4 * 16 + b / 16) ::
      base64Char (b % 16 * 4 + c / 64) :: base64Char (c % 64) ::
      base64EncodeList rest

/-- Model of Go `base64.StdEncoding.EncodeToString([]byte(s))`. -/
def base64Encode (s : String) : String := ⟨base64EncodeList (stringBytes s)⟩

/-- Embedding of the `HttpClient` struct of `internal/http_client.go`
(the `*http.Client` transport field is the external collaborator and is
not part of the state). -/
structure HttpClient where
  host : String
  port : Nat
  basicToken : String
deriving Repr, DecidableEq

/-- Embedding of `HttpClient.generateBasicToken`: stores
`"Basic " + base64(u + ":" + p)` in the `BasicToken` field. -/
def generateBasicToken (c : HttpClient) (u p : String) : HttpClient :=
  { c with basicToken := "Basic " ++ base64Encode (u ++ ":" ++ p) }

/-- The `Authorization` header value set by `HttpClient.innerRequest`:
when `BasicToken` is non-empty the header is `"Basic " + BasicToken`,
otherwise no header is set. -/
def HttpClient.authHeader (c : HttpClient) : Option String :=
  if c.basicToken ≠ "" then some ("Basic " ++ c.basicToken) else none

/-- The query request assembled by `HttpClient.query` and
`HttpClient.innerRequest`: a POST to `http://host:port/query` with the
url-encoded form fields `db`, `rp`, `q`, `epoch`. -/
structure QueryRequest where
  host : String
  port : Nat
  db : String
  rp : String
  q : String
  epoch : String
  authHeader : Option String
deriving Repr, DecidableEq

/-- The write request assembled by `HttpClient.write` and
`HttpClient.innerRequest`: a POST to
`http://host:port/write?db=<db>&rp=<rp>` whose body is the line-protocol
payload. -/
structure WriteRequest where
  host : String
  port : Nat
  pathAndQuery : String
  body : String
  authHeader : Option String
deriving Repr, DecidableEq

/-- Embedding of `HttpClient.query` (the `QueryValue` fields become the
form fields, in the order they are added). -/
def HttpClient.queryReq (c : HttpClient) (db rp q epoch : String) : QueryRequest :=
  { host := c.host, port := c.port, db := db, rp := rp, q := q, epoch := epoch,
    authHeader := c.authHeader }

/-- Embedding of `HttpClient.write`: the URL is built by
`fmt.Sprintf("http://%s:%d/write?db=%s&rp=%s", ...)`. -/
def HttpClient.writeReq (c : HttpClient) (db rp body : String) : WriteRequest :=
  { host := c.host, port := c.port,
    pathAndQuery := "/write?db=" ++ db ++ "&rp=" ++ rp,
    body := body, authHeader := c.authHeader }

/-- Embedding of the mutable fields of the `CommandLine` struct of
`internal/prompt.go` (the session state). -/
structure Session where
  username : String
  password : String
  precision : String
  database : String
  retentionPolicy : String
deriving Repr, DecidableEq

/-- Embedding of `CommandLine.use`. -/
def useCmd (st : Session) (arg : String) : Except String Session :=
  if (goFields arg).length ≤ 1 then .error "invalid argument, use [db name]"
  else .ok { st with database := (goFields arg).getD 1 "" }

/-- Embedding of `CommandLine.retentionPolicy`. -/
def rpCmd (st : Session) (arg : String) : Except String Session :=
  if (goFields arg).length ≤ 1 then .error "invalid argument, rp [retention policy]"
  else .ok { st with retentionPolicy := (goFields arg).getD 1 "" }

/-- Embedding of `CommandLine.precision`. -/
def precisionCmd (st : Session) (arg : String) : Except String Session :=
  if (goFields arg).length ≤ 1 then .error "invalid argument, precision [rfc3339,h,m,s,ms,u,ns]"
  else .ok { st with precision := (goFields arg).getD 1 "" }

/-- Embedding of `CommandLine.auth`: reads a username and a password from
the terminal (modelled as the pair `input`) and stores them in the
session.  Note that it does not touch the `HttpClient`. -/
def authCmd (st : Session) (input : String × String) : Session :=
  { st with username := input.1, password := input.2 }

/-- Embedding of `CommandLine.write`: the body is `arg[7:]`, which in Go
panics when the (trimmed) line is shorter than 7 bytes. -/
def writeCmd (st : Session) (hc : HttpClient) (arg : String) : Option WriteRequest :=
  (goSliceFrom arg 7).map fun payload =>
    hc.writeReq st.database st.retentionPolicy payload

/-- Embedding of `CommandLine.query`: the whole (trimmed) line is the `q`
field, database / retention policy / precision come from the session. -/
def queryCmd (st : Session) (hc : HttpClient) (arg : String) : QueryRequest :=
  hc.queryReq st.database st.retentionPolicy arg st.precision

/-- Embedding of `CommandLine.command`: the first whitespace-delimited
token of the line (`strings.Fields(arg)[0]`). -/
def command (s : String) : String := (goFields s).headD ""

/-- The pass-through query verbs of the `switch` in
`CommandLine.executor`. -/
def queryTokens : List String :=
  ["show", "drop", "create", "explain", "kill", "grant", "alter", "revoke", "set"]

/-- All first tokens recognized by the `switch` in
`CommandLine.executor`. -/
def commandTokens : List String :=
  ["help", "use", "rp", "auth", "precision", "insert"] ++ queryTokens

/-- The static usage text printed by `CommandLine.help`. -/
def helpText : String :=
  "Usage:\n\tauth                    prompts for username and password\n\tuse <db name>           sets current database\n\tprecision <format>      specifies the format of the timestamp: rfc3339, h, m, s, ms, u or ns\n\texit/quit/ctrl+d        quits the openGemini shell\n\n\tshow databases          show database names\n\tshow series             show series information\n\tshow measurements       show measurement information\n\tshow tag keys           show tag key information\n\tshow field keys         show field key information\n\n\tA full list of openGemini commands can be found at:\n\thttps://docs.opengemini.org"

/-- Which handler of `CommandLine.executor` ran for a line. -/
inductive Handler where
  | emptyH | exitH | helpH | useH | rpH | authH | precisionH | insertH
  | queryH | unsupportedH
deriving Repr, DecidableEq

/-- An observable effect of one executor step: a line printed to the
terminal, or an HTTP request handed to the transport. -/
inductive Effect where
  | printed (s : String)
  | queryReq (r : QueryRequest)
  | writeReq (r : WriteRequest)
deriving Repr, DecidableEq

/-- The outcome of one `CommandLine.executor` invocation.  `terminated`
is the `os.Exit(0)` path of `deconstruct`; `crashed` is a Go runtime
panic (out-of-range slice in `CommandLine.write`). -/
structure ExecResult where
  session : Session
  client : HttpClient
  handler : Handler
  effects : List Effect
  errMsg : Option String
  terminated : Bool
  crashed : Bool
deriving Repr, DecidableEq

/-- The `switch cl.command(s)` of `CommandLine.executor`, applied to the
trimmed non-empty line `s`: which handler runs, the session it leaves,
the effects it emits, the error it returns, and whether it panicked.
The transport call itself is modelled as succeeding (transport errors
are external nondeterminism); the request the handler would send is
recorded as an effect. -/
def dispatch (st : Session) (hc : HttpClient) (authInput : String × String)
    (s : String) : Handler × Session × List Effect × Option String × Bool :=
  if command s = "help" then (.helpH, st, [.printed helpText], none, false)
  else if command s = "use" then
    match useCmd st s with
    | .ok st' => (.useH, st', [], none, false)
    | .error e => (.useH, st, [], some e, false)
  else if command s = "rp" then
    match rpCmd st s with
    | .ok st' => (.rpH, st', [], none, false)
    | .error e => (.rpH, st, [], some e, false)
  else if command s = "auth" then (.authH, authCmd st authInput, [], none, false)
  else if command s = "precision" then
    match precisionCmd st s with
    | .ok st' => (.precisionH, st', [], none, false)
    | .error e => (.precisionH, st, [], some e, false)
  else if command s = "insert" then
    match writeCmd st hc s with
    | some r => (.insertH, st, [.writeReq r], none, false)
    | none => (.insertH, st, [], none, true)
  else if command s ∈ queryTokens then
    (.queryH, st, [.queryReq (queryCmd st hc s)], none, false)
  else (.unsupportedH, st, [], some ("unsupported command: " ++ command s), false)

/-- Packaging of a `dispatch` step into the executor outcome.  The final
`if err != nil { fmt.Println(err) }` of the Go code appears as the
appended `printed` effect. -/
def finishExec (hc : HttpClient)
    (step : Handler × Session × List Effect × Option String × Bool) : ExecResult :=
  { session := step.2.1, client := hc, handler := step.1,
    effects := step.2.2.1 ++
      (match step.2.2.2.1 with | some e => [.printed e] | none => []),
    errMsg := step.2.2.2.1, terminated := false, crashed := step.2.2.2.2 }

/-- Embedding of `CommandLine.executor`, for one input line: trim the
line, return on an empty result, terminate on `exit` / `quit` / `\q`,
otherwise run exactly one handler chosen by the first token. -/
def executor (st : Session) (hc : HttpClient) (authInput : String × String)
    (line : String) : ExecResult :=
  if goTrimSpace line = "" then
    ⟨st, hc, .emptyH, [], none, false, false⟩
  else if goTrimSpace line = "exit" ∨ goTrimSpace line = "quit" ∨
      goTrimSpace line = "\\q" then
    ⟨st, hc, .exitH, [], none, true, false⟩
  else finishExec hc (dispatch st hc authInput (goTrimSpace line))

/-- A scalar cell of a decoded series row.  `json.Unmarshal` into
`interface{}` yields strings, numbers (float64), booleans and nil;
numbers are modelled as integers, whose `%v` rendering is their decimal
representation (exact for the integral values appearing in the claims). -/
inductive SVal where
  | str (s : String)
  | num (n : Int)
  | boolean (b : Bool)
  | null
deriving Repr, DecidableEq

/-- Model of `fmt.Sprintf("%v", val)` on a decoded JSON scalar, as used
by `CommandLine.prettyTable` (`%v` on nil prints `<nil>`). -/
def goFormatValue : SVal → String
  | .str s => s
  | .num n => toString n
  | .boolean b => if b then "true" else "false"
  | .null => "<nil>"

/-- Embedding of the `Series` struct of `internal/prompt.go`.  The Go
`Tags` field is a `map[string]string`; it is modelled as the association
list of its entries in the (arbitrary) order a `range` loop visits
them. -/
structure Series where
  name : String
  tags : List (String × String)
  columns : List String
  values : List (List SVal)
deriving Repr, DecidableEq

/-- Embedding of the `SeriesResult` struct. -/
structure SeriesResult where
  series : List Series
  error : String
deriving Repr, DecidableEq

/-- Embedding of the `QueryResult` struct. -/
structure QueryResult where
  results : List SeriesResult
  error : String
deriving Repr, DecidableEq

/-- Model of Go `sort.Strings` (ascending lexicographic byte order; on
UTF-8 data byte order and code-point order coincide). -/
def sortStrings (l : List String) : List String :=
  List.insertionSort (fun a b : String => a ≤ b) l

/-- The tag-line computation of `CommandLine.pretty`: the `range` loop
appends `"k=v"` for each map entry and re-sorts the accumulator after
every append. -/
def tagStrings (tags : List (String × String)) : List String :=
  tags.foldl (fun acc kv => sortStrings (acc ++ [kv.1 ++ "=" ++ kv.2])) []

/-- The table built by `CommandLine.prettyTable`: auto-formatting of
headers is switched off, the header is the `columns` field, each body
row is the `%v`-stringified values row. -/
structure RenderedTable where
  autoFormatHeaders : Bool
  header : List String
  rows : List (List String)
deriving Repr, DecidableEq

/-- Embedding of `CommandLine.prettyTable`. -/
def prettyTable (s : Series) : RenderedTable :=
  { autoFormatHeaders := false,
    header := s.columns,
    rows := s.values.map fun row => row.map goFormatValue }

/-- One item of the rendered terminal output: a printed text line or a
table handed to the table-writer collaborator. -/
inductive OutItem where
  | line (s : String)
  | table (t : RenderedTable)
deriving Repr, DecidableEq

/-- The caption printed after each series table:
`fmt.Sprintf("%d columns, %d rows in set", len(columns), len(values))`. -/
def seriesCaption (s : Series) : String :=
  toString s.columns.length ++ " columns, " ++ toString s.values.length ++ " rows in set"

/-- The `name:` and `tags:` lines printed before a series table (each
only when non-empty). -/
def seriesMetaLines (s : Series) : List OutItem :=
  (if s.name ≠ "" then [OutItem.line ("name: " ++ s.name)] else []) ++
  (if (tagStrings s.tags).length ≠ 0 then
    [OutItem.line ("tags: " ++ String.intercalate ", " (tagStrings s.tags))]
  else [])

/-- The output produced for one series by the inner loop of
`CommandLine.pretty`. -/
def renderSeries (s : Series) : List OutItem :=
  seriesMetaLines s ++
  [OutItem.table (prettyTable s),
   OutItem.line (seriesCaption s),
   OutItem.line ""]

/-- Embedding of `CommandLine.pretty`.  The argument is the outcome of
the external `json.Unmarshal` call on the response bytes: `.error e`
when decoding fails (with the decoder's message), `.ok qr` when it
yields a `QueryResult`.  On failure the error is printed and the
function returns; on success the two nested loops render every series
of every result in order. -/
def pretty (dec : Except String QueryResult) : List OutItem :=
  match dec with
  | .error e => [OutItem.line e]
  | .ok qr => ((qr.results.map SeriesResult.series).flatten.map renderSeries).flatten

/-- The tables occurring in an output sequence, in order. -/
def tablesOf (items : List OutItem) : List RenderedTable :=
  items.filterMap fun i =>
    match i with
    | .table t => some t
    | .line _ => none

/-! ## Helper lemmas about the executor -/

theorem executor_eq_finish {st : Session} {hc : HttpClient} {ap : String × String}
    {line : String} (h0 : goTrimSpace line ≠ "") (h1 : goTrimSpace line ≠ "exit")
    (h2 : goTrimSpace line ≠ "quit") (h3 : goTrimSpace line ≠ "\\q") :
    executor st hc ap line = finishExec hc (dispatch st hc ap (goTrimSpace line)) := by
  unfold executor
  rw [if_neg h0, if_neg (by simp [h1, h2, h3])]

theorem trim_ne_of_command {line v w : String}
    (htok : command (goTrimSpace line) = v) (hw : ¬ command w = v) :
    goTrimSpace line ≠ w :=
  fun h => hw (h ▸ htok)

theorem dispatch_use {st : Session} {hc : HttpClient} {ap : String × String}
    {s : String} (htok : command s = "use") :
    dispatch st hc ap s =
      match useCmd st s with
      | .ok st' => (.useH, st', [], none, false)
      | .error e => (.useH, st, [], some e, false) := by
  unfold dispatch
  rw [htok]
  rfl

theorem dispatch_insert {st : Session} {hc : HttpClient} {ap : String × String}
    {s : String} (htok : command s = "insert") :
    dispatch st hc ap s =
      match writeCmd st hc s with
      | some r => (.insertH, st, [.writeReq r], none, false)
      | none => (.insertH, st, [], none, true) := by
  unfold dispatch
  rw [htok]
  rfl

theorem dispatch_query {st : Session} {hc : HttpClient} {ap : String × String}
    {s : String} (hmem : command s ∈ queryTokens) :
    dispatch st hc ap s = (.queryH, st, [.queryReq (queryCmd st hc s)], none, false) := by
  have h1 : ¬ command s = "help" := fun h => by rw [h] at hmem; exact absurd hmem (by decide)
  have h2 : ¬ command s = "use" := fun h => by rw [h] at hmem; exact absurd hmem (by decide)
  have h3 : ¬ command s = "rp" := fun h => by rw [h] at hmem; exact absurd hmem (by decide)
  have h4 : ¬ command s = "auth" := fun h => by rw [h] at hmem; exact absurd hmem (by decide)
  have h5 : ¬ command s = "precision" := fun h => by rw [h] at hmem; exact absurd hmem (by decide)
  have h6 : ¬ command s = "insert" := fun h => by rw [h] at hmem; exact absurd hmem (by decide)
  unfold dispatch
  rw [if_neg h1, if_neg h2, if_neg h3, if_neg h4, if_neg h5, if_neg h6, if_pos hmem]

theorem dispatch_unsupported {st : Session} {hc : HttpClient} {ap : String × String}
    {s : String} (hmem : command s ∉ commandTokens) :
    dispatch st hc ap s =
      (.unsupportedH, st, [], some ("unsupported command: " ++ command s), false) := by
  have h1 : ¬ command s = "help" := fun h => hmem (by rw [h]; decide)
  have h2 : ¬ command s = "use" := fun h => hmem (by rw [h]; decide)
  have h3 : ¬ command s = "rp" := fun h => hmem (by rw [h]; decide)
  have h4 : ¬ command s = "auth" := fun h => hmem (by rw [h]; decide)
  have h5 : ¬ command s = "precision" := fun h => hmem (by rw [h]; decide)
  have h6 : ¬ command s = "insert" := fun h => hmem (by rw [h]; decide)
  have h7 : command s ∉ queryTokens := fun h => hmem (List.mem_append.mpr (Or.inr h))
  unfold dispatch
  rw [if_neg h1, if_neg h2, if_neg h3, if_neg h4, if_neg h5, if_neg h6, if_neg h7]

/-! ## The claims -/

/-- C10: an input line that is empty, or only whitespace, after trimming
makes the executor return immediately: no handler runs, no request is
issued, nothing is printed, and the whole session state (all five
fields) and the client are unchanged. -/
theorem emptyLineIsNoop (st : Session) (hc : HttpClient) (ap : String × String)
    (line : String) (h : goTrimSpace line = "") :
    executor st hc ap line =
      { session := st, client := hc, handler := .emptyH, effects := [],
        errMsg := none, terminated := false, crashed := false } := by
  unfold executor
  rw [if_pos h]

/-- Witness for C10 at the concrete whitespace-only line `"   "`. -/
theorem emptyLineIsNoop_witness :
    goTrimSpace "   " = "" ∧
    executor ⟨"", "", "", "", ""⟩ ⟨"127.0.0.1", 8086, ""⟩ ("", "") "   " =
      { session := ⟨"", "", "", "", ""⟩, client := ⟨"127.0.0.1", 8086, ""⟩,
        handler := .emptyH, effects := [], errMsg := none,
        terminated := false, crashed := false } :=
  ⟨by decide, emptyLineIsNoop ⟨"", "", "", "", ""⟩ ⟨"127.0.0.1", 8086, ""⟩ ("", "")
    "   " (by decide)⟩

/-- C6: a line whose fields are exactly `["use"]` (the token `use` with
no second token) makes the `use` handler fail with the invalid-argument
error, which is printed; the session — in particular `Database` — and
the client are unchanged and the loop neither terminates nor crashes. -/
theorem useWithoutArgFails (st : Session) (hc : HttpClient) (ap : String × String)
    (line : String) (h : goFields (goTrimSpace line) = ["use"]) :
    executor st hc ap line =
      { session := st, client := hc, handler := .useH,
        effects := [.printed "invalid argument, use [db name]"],
        errMsg := some "invalid argument, use [db name]",
        terminated := false, crashed := false } := by
  have htok : command (goTrimSpace line) = "use" := by
    rw [command, h]
    rfl
  have h0 : goTrimSpace line ≠ "" := fun he => by
    rw [he] at h; exact absurd h (by decide)
  rw [executor_eq_finish h0 (trim_ne_of_command htok (by decide))
        (trim_ne_of_command htok (by decide)) (trim_ne_of_command htok (by decide)),
      dispatch_use htok]
  unfold useCmd
  rw [h]
  rfl

/-- Witness for C6 at the concrete line `" use "`. -/
theorem useWithoutArgFails_witness :
    goFields (goTrimSpace " use ") = ["use"] ∧
    executor ⟨"u", "p", "ms", "db0", "rp0"⟩ ⟨"127.0.0.1", 8086, ""⟩ ("", "") " use " =
      { session := ⟨"u", "p", "ms", "db0", "rp0"⟩, client := ⟨"127.0.0.1", 8086, ""⟩,
        handler := .useH, effects := [.printed "invalid argument, use [db name]"],
        errMsg := some "invalid argument, use [db name]",
        terminated := false, crashed := false } :=
  ⟨by decide, useWithoutArgFails ⟨"u", "p", "ms", "db0", "rp0"⟩ ⟨"127.0.0.1", 8086, ""⟩
    ("", "") " use " (by decide)⟩

/-- C7: a non-empty trimmed line whose first token is none of the
fifteen recognized command tokens (and which is not one of the three
whole-line exit forms `exit` / `quit` / `\q`, which the routing table
recognizes as the terminate command) produces the `unsupported command:`
error with the offending token in the message; the error is printed, all
five session fields and the client are unchanged, and the loop neither
terminates nor crashes. -/
theorem unsupportedTokenFails (st : Session) (hc : HttpClient) (ap : String × String)
    (line : String) (h0 : goTrimSpace line ≠ "")
    (h1 : goTrimSpace line ≠ "exit") (h2 : goTrimSpace line ≠ "quit")
    (h3 : goTrimSpace line ≠ "\\q")
    (hmem : command (goTrimSpace line) ∉ commandTokens) :
    executor st hc ap line =
      { session := st, client := hc, handler := .unsupportedH,
        effects := [.printed ("unsupported command: " ++ command (goTrimSpace line))],
        errMsg := some ("unsupported command: " ++ command (goTrimSpace line)),
        terminated := false, crashed := false } := by
  rw [executor_eq_finish h0 h1 h2 h3, dispatch_unsupported hmem]
  rfl

/-- Witness for C7 at the concrete line `"frobnicate db"`. -/
theorem unsupportedTokenFails_witness :
    goTrimSpace "frobnicate db" ≠ "" ∧
    command (goTrimSpace "frobnicate db") ∉ commandTokens ∧
    executor ⟨"u", "p", "ms", "db0", "rp0"⟩ ⟨"127.0.0.1", 8086, ""⟩ ("", "")
        "frobnicate db" =
      { session := ⟨"u", "p", "ms", "db0", "rp0"⟩, client := ⟨"127.0.0.1", 8086, ""⟩,
        handler := .unsupportedH,
        effects := [.printed "unsupported command: frobnicate"],
        errMsg := some "unsupported command: frobnicate",
        terminated := false, crashed := false } :=
  ⟨by decide, by decide, by
    have h := unsupportedTokenFails ⟨"u", "p", "ms", "db0", "rp0"⟩
      ⟨"127.0.0.1", 8086, ""⟩ ("", "") "frobnicate db"
      (by decide) (by decide) (by decide) (by decide) (by decide)
    rw [h]
    decide⟩

/-- C1 (code bug): after credentials are set via the `auth` command the
requests do NOT carry the claimed `Authorization: Basic <b64(u:p)>`
header.  Two independent slips, both evaluated here at username `"u"`,
password `"p"` (where `b64("u:p") = "dTpw"`): (1) the `auth` handler
stores the credentials only in the `CommandLine` struct and never calls
`generateBasicToken`, so `BasicToken` stays empty and a following query
carries no `Authorization` header at all; (2) had the token been
generated, `generateBasicToken` already embeds the `"Basic "` marker in
`BasicToken` and `innerRequest` prepends it a second time, yielding the
doubled header value `"Basic Basic dTpw"` instead of `"Basic dTpw"`. -/
theorem basicAuthHeaderBug :
    ((executor ⟨"", "", "", "", ""⟩ ⟨"127.0.0.1", 8086, ""⟩ ("u", "p") "auth").session =
      ⟨"u", "p", "", "", ""⟩) ∧
    ((executor ⟨"", "", "", "", ""⟩ ⟨"127.0.0.1", 8086, ""⟩ ("u", "p") "auth").client.basicToken
      = "") ∧
    ((executor
        (executor ⟨"", "", "", "", ""⟩ ⟨"127.0.0.1", 8086, ""⟩ ("u", "p") "auth").session
        (executor ⟨"", "", "", "", ""⟩ ⟨"127.0.0.1", 8086, ""⟩ ("u", "p") "auth").client
        ("u", "p") "show databases").effects =
      [Effect.queryReq ⟨"127.0.0.1", 8086, "", "", "show databases", "", none⟩]) ∧
    base64Encode "u:p" = "dTpw" ∧
    ((generateBasicToken ⟨"127.0.0.1", 8086, ""⟩ "u" "p").authHeader =
      some "Basic Basic dTpw") := by
  decide

/-- C2 (code bug): the failure-isolation contract is violated.  The
non-empty trimmed line `"insert"` selects the insert handler, whose body
expression `arg[7:]` is out of range for the 6-byte string and panics,
crashing the process instead of printing an error and continuing; no
request and no output are produced. -/
theorem insertLineCrashes :
    (executor ⟨"", "", "", "", ""⟩ ⟨"127.0.0.1", 8086, ""⟩ ("", "") "insert").handler =
      .insertH ∧
    (executor ⟨"", "", "", "", ""⟩ ⟨"127.0.0.1", 8086, ""⟩ ("", "") "insert").crashed =
      true ∧
    (executor ⟨"", "", "", "", ""⟩ ⟨"127.0.0.1", 8086, ""⟩ ("", "") "insert").effects =
      [] := by
  decide

/-- C3 counterexample: with session database `db1` and retention policy
`rp1`, the line `"insert"` is classified as insert (its first token is
`insert`), yet no write request at all is issued — the handler panics on
`arg[7:]` — so the claim's universally quantified write request (here
with body `""`, the line minus its first 7 characters) does not exist. -/
theorem insertWriteCounterexample :
    command (goTrimSpace "insert") = "insert" ∧
    (executor ⟨"", "", "", "db1", "rp1"⟩ ⟨"localhost", 8086, ""⟩ ("", "") "insert").effects
      = [] ∧
    (executor ⟨"", "", "", "db1", "rp1"⟩ ⟨"localhost", 8086, ""⟩ ("", "") "insert").crashed
      = true := by
  decide

/-- C3 (amended): for every input line classified as insert whose
trimmed form is at least 7 characters long (so that the Go slice
`arg[7:]` is in range), with session database `db1` and retention policy
`rp1`, the dispatcher issues exactly one write request, to
`/write?db=db1&rp=rp1`, whose body is the trimmed line with its first 7
characters removed. -/
theorem insertIssuesWrite (st : Session) (hc : HttpClient) (ap : String × String)
    (line : String) (hdb : st.database = "db1") (hrp : st.retentionPolicy = "rp1")
    (htok : command (goTrimSpace line) = "insert")
    (hlen : 7 ≤ (goTrimSpace line).data.length) :
    executor st hc ap line =
      { session := st, client := hc, handler := .insertH,
        effects := [.writeReq
          { host := hc.host, port := hc.port,
            pathAndQuery := "/write?db=db1&rp=rp1",
            body := ⟨(goTrimSpace line).data.drop 7⟩,
            authHeader := hc.authHeader }],
        errMsg := none, terminated := false, crashed := false } := by
  have h0 : goTrimSpace line ≠ "" := trim_ne_of_command htok (by decide)
  rw [executor_eq_finish h0 (trim_ne_of_command htok (by decide))
        (trim_ne_of_command htok (by decide)) (trim_ne_of_command htok (by decide)),
      dispatch_insert htok]
  unfold writeCmd goSliceFrom
  rw [if_pos hlen]
  simp [finishExec, HttpClient.writeReq, hdb, hrp]

/-- Witness for C3 (amended) at the concrete line `"insert cpu v=1"`. -/
theorem insertIssuesWrite_witness :
    command (goTrimSpace "insert cpu v=1") = "insert" ∧
    7 ≤ (goTrimSpace "insert cpu v=1").data.length ∧
    executor ⟨"", "", "", "db1", "rp1"⟩ ⟨"localhost", 8086, ""⟩ ("", "") "insert cpu v=1" =
      { session := ⟨"", "", "", "db1", "rp1"⟩, client := ⟨"localhost", 8086, ""⟩,
        handler := .insertH,
        effects := [.writeReq
          { host := "localhost", port := 8086,
            pathAndQuery := "/write?db=db1&rp=rp1", body := "cpu v=1",
            authHeader := none }],
        errMsg := none, terminated := false, crashed := false } :=
  ⟨by decide, by decide, by
    have h := insertIssuesWrite ⟨"", "", "", "db1", "rp1"⟩ ⟨"localhost", 8086, ""⟩
      ("", "") "insert cpu v=1" rfl rfl (by decide) (by decide)
    rw [h]
    decide⟩

/-- C5: executing a line whose fields are `["use", x]` sets the session
database to `x` and changes nothing else, and any subsequently
dispatched query-verb line `q` from that session produces exactly one
query request whose `db` form field is `x`, whose `rp` field is the
session retention policy, whose `q` field is the (trimmed) input line,
and whose `epoch` field is the session precision. -/
theorem useThenQueryUsesDb (st : Session) (hc : HttpClient) (ap : String × String)
    (u q x : String) (hu : goFields (goTrimSpace u) = ["use", x])
    (hq : command (goTrimSpace q) ∈ queryTokens) :
    (executor st hc ap u).session = { st with database := x } ∧
    executor (executor st hc ap u).session hc ap q =
      { session := { st with database := x }, client := hc, handler := .queryH,
        effects := [.queryReq
          { host := hc.host, port := hc.port, db := x, rp := st.retentionPolicy,
            q := goTrimSpace q, epoch := st.precision,
            authHeader := hc.authHeader }],
        errMsg := none, terminated := false, crashed := false } := by
  have htoku : command (goTrimSpace u) = "use" := by
    rw [command, hu]
    rfl
  have hu0 : goTrimSpace u ≠ "" := trim_ne_of_command htoku (by decide)
  have hfirst : (executor st hc ap u).session = { st with database := x } := by
    rw [executor_eq_finish hu0 (trim_ne_of_command htoku (by decide))
          (trim_ne_of_command htoku (by decide)) (trim_ne_of_command htoku (by decide)),
        dispatch_use htoku]
    unfold useCmd
    rw [hu]
    rfl
  refine ⟨hfirst, ?_⟩
  have hq0 : goTrimSpace q ≠ "" := by
    intro h
    rw [h] at hq
    exact absurd hq (by decide)
  have hq1 : goTrimSpace q ≠ "exit" := by
    intro h
    rw [h] at hq
    exact absurd hq (by decide)
  have hq2 : goTrimSpace q ≠ "quit" := by
    intro h
    rw [h] at hq
    exact absurd hq (by decide)
  have hq3 : goTrimSpace q ≠ "\\q" := by
    intro h
    rw [h] at hq
    exact absurd hq (by decide)
  rw [hfirst, executor_eq_finish hq0 hq1 hq2 hq3, dispatch_query hq]
  rfl

/-- Witness for C5 with `"use mydb"` followed by `"show databases"`. -/
theorem useThenQueryUsesDb_witness :
    goFields (goTrimSpace "use mydb") = ["use", "mydb"] ∧
    command (goTrimSpace "show databases") ∈ queryTokens ∧
    executor (executor ⟨"", "", "ms", "old", "rp0"⟩ ⟨"localhost", 8086, ""⟩ ("", "")
        "use mydb").session ⟨"localhost", 8086, ""⟩ ("", "") "show databases" =
      { session := ⟨"", "", "ms", "mydb", "rp0"⟩, client := ⟨"localhost", 8086, ""⟩,
        handler := .queryH,
        effects := [.queryReq
          { host := "localhost", port := 8086, db := "mydb", rp := "rp0",
            q := "show databases", epoch := "ms", authHeader := none }],
        errMsg := none, terminated := false, crashed := false } :=
  ⟨by decide, by decide, by
    have h := (useThenQueryUsesDb ⟨"", "", "ms", "old", "rp0"⟩ ⟨"localhost", 8086, ""⟩
      ("", "") "use mydb" "show databases" "mydb" (by decide) (by decide)).2
    rw [h]
    decide⟩

/-! ## Helper lemmas about tag sorting and the renderer -/

theorem sortStrings_perm (l : List String) : List.Perm (sortStrings l) l :=
  List.perm_insertionSort _ l

theorem sortStrings_sorted (l : List String) :
    List.Sorted (fun a b : String => a ≤ b) (sortStrings l) :=
  List.sorted_insertionSort _ l

theorem tagStrings_foldl_perm (tags : List (String × String)) :
    ∀ acc : List String,
      List.Perm
        (tags.foldl (fun acc kv => sortStrings (acc ++ [kv.1 ++ "=" ++ kv.2])) acc)
        (acc ++ tags.map fun kv => kv.1 ++ "=" ++ kv.2) := by
  induction tags with
  | nil => intro acc; simp
  | cons kv tl ih =>
    intro acc
    have h1 := ih (sortStrings (acc ++ [kv.1 ++ "=" ++ kv.2]))
    have h2 := (sortStrings_perm (acc ++ [kv.1 ++ "=" ++ kv.2])).append_right
      (tl.map fun kv => kv.1 ++ "=" ++ kv.2)
    simpa using h1.trans h2

theorem tagStrings_foldl_sorted (tags : List (String × String)) :
    ∀ acc : List String, List.Sorted (fun a b : String => a ≤ b) acc →
      List.Sorted (fun a b : String => a ≤ b)
        (tags.foldl (fun acc kv => sortStrings (acc ++ [kv.1 ++ "=" ++ kv.2])) acc) := by
  induction tags with
  | nil => intro acc h; exact h
  | cons kv tl ih => intro acc h; exact ih _ (sortStrings_sorted _)

theorem tagStrings_perm (tags : List (String × String)) :
    List.Perm (tagStrings tags) (tags.map fun kv => kv.1 ++ "=" ++ kv.2) := by
  simpa using tagStrings_foldl_perm tags []

theorem tagStrings_sorted (tags : List (String × String)) :
    List.Sorted (fun a b : String => a ≤ b) (tagStrings tags) :=
  tagStrings_foldl_sorted tags [] List.sorted_nil

theorem tagStrings_perm_inv {t t' : List (String × String)}
    (h : List.Perm t t') : tagStrings t = tagStrings t' :=
  List.eq_of_perm_of_sorted
    ((tagStrings_perm t).trans
      ((h.map fun kv => kv.1 ++ "=" ++ kv.2).trans (tagStrings_perm t').symm))
    (tagStrings_sorted t) (tagStrings_sorted t')

theorem tablesOf_append (a b : List OutItem) :
    tablesOf (a ++ b) = tablesOf a ++ tablesOf b := by
  simp [tablesOf, List.filterMap_append]

theorem tablesOf_renderSeries (s : Series) :
    tablesOf (renderSeries s) = [prettyTable s] := by
  unfold renderSeries seriesMetaLines
  rw [tablesOf_append, tablesOf_append]
  split_ifs <;> simp [tablesOf]

theorem tablesOf_flatten_render (L : List Series) :
    tablesOf ((L.map renderSeries).flatten) = L.map prettyTable := by
  induction L with
  | nil => rfl
  | cons s tl ih => simp [tablesOf_append, tablesOf_renderSeries, ih]

/-- C4: the rendered tag pairs are always fully sorted, whatever order
the `range` over the tag map delivers them in: the result is unchanged
under permutation of the map's iteration order, it is sorted, it is a
permutation of all `key=value` pairs (none dropped), the `tags:` line is
printed for a non-empty tag mapping, and the tags `{b:2, a:1}` render
as the line `tags: a=1, b=2`. -/
theorem tagsRenderSorted (nm : String) (cols : List String) (vals : List (List SVal))
    (t t' : List (String × String)) (hperm : List.Perm t' t) (hne : t ≠ []) :
    tagStrings t' = tagStrings t ∧
    List.Sorted (fun a b : String => a ≤ b) (tagStrings t) ∧
    List.Perm (tagStrings t) (t.map fun kv => kv.1 ++ "=" ++ kv.2) ∧
    seriesMetaLines { name := nm, tags := t, columns := cols, values := vals } =
      (if nm ≠ "" then [OutItem.line ("name: " ++ nm)] else []) ++
      [OutItem.line ("tags: " ++ String.intercalate ", " (tagStrings t))] ∧
    tagStrings [("b", "2"), ("a", "1")] = ["a=1", "b=2"] ∧
    seriesMetaLines { name := "", tags := [("b", "2"), ("a", "1")],
                      columns := [], values := [] } =
      [OutItem.line "tags: a=1, b=2"] := by
  have hlen : (tagStrings t).length ≠ 0 := by
    rw [(tagStrings_perm t).length_eq, List.length_map]
    intro h
    exact hne (List.length_eq_zero.mp h)
  have hconc : tagStrings [("b", "2"), ("a", "1")] = ["a=1", "b=2"] := by
    have hle : ¬ (("b=2" : String) ≤ "a=1") := by
      rw [String.le_iff_toList_le]
      decide
    simp [tagStrings, sortStrings, List.insertionSort, List.orderedInsert, hle]
    decide
  refine ⟨tagStrings_perm_inv hperm, tagStrings_sorted t, tagStrings_perm t, ?_, hconc, ?_⟩
  · unfold seriesMetaLines
    rw [if_pos hlen]
  · unfold seriesMetaLines
    rw [hconc]
    decide

/-- Witness for C4 with map iteration orders `[(a,1),(b,2)]` and
`[(b,2),(a,1)]`. -/
theorem tagsRenderSorted_witness :
    List.Perm [(("a" : String), ("1" : String)), ("b", "2")] [("b", "2"), ("a", "1")] ∧
    ([("b", "2"), ("a", "1")] : List (String × String)) ≠ [] ∧
    tagStrings [("a", "1"), ("b", "2")] = tagStrings [("b", "2"), ("a", "1")] :=
  ⟨List.Perm.swap ("b", "2") ("a", "1") [], by decide,
    (tagsRenderSorted "" [] [] [("b", "2"), ("a", "1")] [("a", "1"), ("b", "2")]
      (List.Perm.swap ("b", "2") ("a", "1") []) (by decide)).1⟩

/-- C8: the renderer's decode contract.  When `json.Unmarshal` fails the
error is printed and nothing else — in particular no table, partial or
otherwise — is produced; when it succeeds, the rendered tables are
exactly the tables of the decoded series, one per series, in input
order (results in order, series within each result in order), with no
sorting and no filtering. -/
theorem prettyRenderContract (e : String) (qr : QueryResult) :
    pretty (Except.error e) = [OutItem.line e] ∧
    tablesOf (pretty (Except.error e)) = [] ∧
    tablesOf (pretty (Except.ok qr)) =
      (qr.results.map SeriesResult.series).flatten.map prettyTable := by
  refine ⟨rfl, rfl, ?_⟩
  unfold pretty
  exact tablesOf_flatten_render _

/-- C9: for every series the rendered table's header row is exactly the
`columns` sequence (header auto-formatting off, so no reformatting), the
body rows are the `%v`-stringified `values` rows, and the table is
followed by the caption `<columnCount> columns, <rowCount> rows in set`
and a blank line; for columns `["time","value"]` and values
`[[1000,42]]` this gives one header row, the single body row
`["1000","42"]`, and the caption `2 columns, 1 rows in set`. -/
theorem tableShapeContract :
    (∀ s : Series,
      (prettyTable s).autoFormatHeaders = false ∧
      (prettyTable s).header = s.columns ∧
      (prettyTable s).rows = s.values.map (fun row => row.map goFormatValue) ∧
      renderSeries s = seriesMetaLines s ++
        [OutItem.table (prettyTable s), OutItem.line (seriesCaption s),
         OutItem.line ""] ∧
      seriesCaption s = toString s.columns.length ++ " columns, " ++
        toString s.values.length ++ " rows in set") ∧
    renderSeries { name := "", tags := [], columns := ["time", "value"],
                   values := [[SVal.num 1000, SVal.num 42]] } =
      [OutItem.table { autoFormatHeaders := false, header := ["time", "value"],
                       rows := [["1000", "42"]] },
       OutItem.line "2 columns, 1 rows in set", OutItem.line ""] :=
  ⟨fun _ => ⟨rfl, rfl, rfl, rfl, rfl⟩, by decide⟩

end TsCli
